import Mathlib

/-!
# Checkout upsell extension

A shallow embedding of `extensions/upsell-product/src/Checkout.jsx`: the catalog
loader (`fetchProductDetails`), the selection state (`handleVariantChange`), the
cart reconciler (`handleAddToCart`) and the per-product part of the render
function, followed by the properties proved about them.

Modelling conventions.
* A JavaScript value that may be `undefined` or `null` is an `Option`.
* A computation that may throw is an `Option` whose `none` is the thrown
  exception; the code only ever catches and reports, it never inspects the error.
* A plain object used as a dictionary is an association list of its own
  string-keyed data properties, in insertion order. Its prototype is
  `Object.prototype`: a read of a key without own entry that names a member of the
  prototype yields that member, and the assignment `obj["__proto__"] = value`
  reaches the inherited setter, which stores nothing for a string value.
* The React state of the component is the record `ExtState`; a state setter is a
  record update. The host services (`query`, `i18n.formatCurrency`,
  `applyCartLinesChange`) are parameters.
-/

namespace Checkout

/-! ## Data model -/

/-- The `priceV2` object of a response node. -/
structure PriceV2 where
  amount : String
  currencyCode : String
deriving DecidableEq, Repr

/-- The `image` object of a response node; both fields are nullable in the catalog. -/
structure Image where
  url : Option String
  altText : Option String
deriving DecidableEq, Repr

/-- The `product` object of a response node. -/
structure Product where
  title : String
deriving DecidableEq, Repr

/-- One element of `response.data.nodes` selected by the `... on ProductVariant` fragment. -/
structure Node where
  id : String
  title : String
  priceV2 : Option PriceV2
  image : Option Image
  product : Option Product
deriving DecidableEq, Repr

/-- The object literal `variant` built in the loader (lines 74-79). -/
structure Variant where
  id : String
  title : String
  price : String
  image : String
deriving DecidableEq, Repr

/-- An element of `fetchedProducts`: `{ heading, variants }`. -/
structure ProductGroup where
  heading : String
  variants : List Variant
deriving DecidableEq, Repr

/-- The banner content `{ type, message }`. -/
structure Status where
  type : String
  message : String
deriving DecidableEq, Repr

/-- The `selectedVariants` dictionary: own properties in insertion order. -/
abbrev Selection := List (String × String)

/-- The own entry of the dictionary under `key`, if there is one. -/
def getKey (obj : Selection) (key : String) : Option String :=
  match obj with
  | [] => none
  | (k, v) :: rest => if k = key then some v else getKey rest key

/-- Definition of the own property `key` with `value`, as the computed-key entry
`[key]: value` of an object literal does it: an existing property keeps its place,
a new one is appended. -/
def setKey (obj : Selection) (key value : String) : Selection :=
  match obj with
  | [] => [(key, value)]
  | (k, v) :: rest => if k = key then (k, value) :: rest else (k, v) :: setKey rest key value

/-- The names of the members of `Object.prototype`, which every plain object
inherits. -/
def objectPrototypeKeys : List String :=
  ["constructor", "__defineGetter__", "__defineSetter__", "hasOwnProperty",
   "__lookupGetter__", "__lookupSetter__", "isPrototypeOf", "propertyIsEnumerable",
   "toString", "valueOf", "__proto__", "toLocaleString"]

/-- What a property read of the dictionary can yield: `undefined`, a stored string,
or the member of `Object.prototype` of that name (an object, never a string). -/
inductive JsVal where
  | undefined
  | str (s : String)
  | inherited (key : String)
deriving DecidableEq, Repr

/-- Property read `obj[key]` on a plain object: the own entry if there is one,
otherwise the inherited member of that name, otherwise `undefined`. -/
def readKey (obj : Selection) (key : String) : JsVal :=
  match getKey obj key with
  | some v => JsVal.str v
  | none => if key ∈ objectPrototypeKeys then JsVal.inherited key else JsVal.undefined

/-- The assignment `obj[key] = value` of a string on a plain object. Without an own
entry the key "__proto__" resolves to the accessor of `Object.prototype`, whose
setter ignores a string, so nothing is stored; every other key, and "__proto__"
when it is already an own entry, is written as an own property. -/
def assignKey (obj : Selection) (key value : String) : Selection :=
  if key = "__proto__" ∧ getKey obj key = none then obj else setKey obj key value

/-- The expression `x || d` for a value read from the dictionary: `undefined` and
the empty string are falsy, an object is truthy. -/
def valOr (x : JsVal) (d : String) : JsVal :=
  match x with
  | JsVal.undefined => JsVal.str d
  | JsVal.str s => if s = "" then JsVal.str d else JsVal.str s
  | JsVal.inherited k => JsVal.inherited k

/-- The four pieces of component state declared with `useState` (lines 30-33). -/
structure ExtState where
  status : Option Status
  products : List ProductGroup
  loading : Bool
  selectedVariants : Selection
deriving DecidableEq, Repr

/-- The state on mount: the initial values passed to `useState`. -/
def mountState : ExtState := ⟨none, [], true, []⟩

/-! ## Catalog loader -/

/-- The placeholder URL literal of line 78. -/
def placeholderImage : String :=
  "https://cdn.shopify.com/s/files/1/0533/2089/files/placeholder-images-image_medium.png?format=webp&v=1530129081"

/-- The expression `x || d` for a possibly-undefined string `x`: the empty string
is falsy, exactly as `undefined` is. -/
def strOr (x : Option String) (d : String) : String :=
  match x with
  | some s => if s = "" then d else s
  | none => d

/-- The object literal of lines 74-79. Reading `node.priceV2.amount` throws when
`priceV2` is missing; `node.image?.url` does not throw. -/
def mkVariant (formatCurrency : String → String → String) (node : Node) : Option Variant := do
  let priceV2 ← node.priceV2
  pure ⟨node.id, node.title, formatCurrency priceV2.amount priceV2.currencyCode,
    strOr (node.image.bind fun i => i.url) placeholderImage⟩

/-- The statement `existingProduct.variants.push(variant)` where `existingProduct`
is the first element of `acc` whose heading is `productTitle`. -/
def pushVariant (acc : List ProductGroup) (productTitle : String) (variant : Variant) :
    List ProductGroup :=
  match acc with
  | [] => []
  | p :: ps =>
    if p.heading = productTitle then ⟨p.heading, p.variants ++ [variant]⟩ :: ps
    else p :: pushVariant ps productTitle variant

/-- Lines 81-90: find the group of `productTitle` and push to it, or append a new
singleton group. -/
def insertVariant (acc : List ProductGroup) (productTitle : String) (variant : Variant) :
    List ProductGroup :=
  match acc.find? (fun p => decide (p.heading = productTitle)) with
  | some _ => pushVariant acc productTitle variant
  | none => acc ++ [⟨productTitle, [variant]⟩]

/-- Lines 73-79: the title and variant read off one node. A `null` node, a node
without `product` and a node without `priceV2` throw. -/
def nodeEntry (formatCurrency : String → String → String) (node : Option Node) :
    Option (String × Variant) := do
  let n ← node
  let product ← n.product
  let productTitle := product.title
  let variant ← mkVariant formatCurrency n
  pure (productTitle, variant)

/-- The reducer callback of lines 72-91. -/
def groupStep (formatCurrency : String → String → String) (acc : List ProductGroup)
    (node : Option Node) : Option (List ProductGroup) := do
  let entry ← nodeEntry formatCurrency node
  pure (insertVariant acc entry.1 entry.2)

/-- The expression `response.data.nodes.reduce(..., [])` of lines 72-91. -/
def fetchedProducts (formatCurrency : String → String → String) (nodes : List (Option Node)) :
    Option (List ProductGroup) :=
  nodes.foldlM (groupStep formatCurrency) []

/-- The reducer callback of lines 93-96: the assignment
`acc[product.heading] = product.variants[0].id`, which throws on a group without
variants. -/
def selectStep (acc : Selection) (product : ProductGroup) : Option Selection := do
  let first ← product.variants.head?
  pure (assignKey acc product.heading first.id)

/-- The expression `fetchedProducts.reduce(..., {})` of lines 93-96. -/
def initialSelectedVariants (groups : List ProductGroup) : Option Selection :=
  groups.foldlM selectStep []

/-- The body `{ data: { nodes } }` of a resolved query; either level may be missing. -/
structure QueryData where
  nodes : Option (List (Option Node))
deriving DecidableEq, Repr

/-- A resolved response of `query`. -/
structure QueryResponse where
  data : Option QueryData
deriving DecidableEq, Repr

/-- What awaiting `query(...)` yields: a rejection or a response. -/
inductive QueryOutcome where
  | rejected (error : String)
  | resolved (response : QueryResponse)
deriving DecidableEq, Repr

/-- The `try` block of `fetchProductDetails` up to the state setters (lines 68-96). -/
def loadBody (formatCurrency : String → String → String) (q : QueryOutcome) :
    Option (List ProductGroup × Selection) := do
  let response ← (match q with
    | QueryOutcome.rejected _ => none
    | QueryOutcome.resolved r => some r)
  let data ← response.data
  let nodes ← data.nodes
  let fetched ← fetchedProducts formatCurrency nodes
  let initialSelected ← initialSelectedVariants fetched
  pure (fetched, initialSelected)

/-- The function `fetchProductDetails` (lines 43-106) as a state transformer. -/
def fetchProductDetails (formatCurrency : String → String → String) (q : QueryOutcome)
    (s : ExtState) : ExtState :=
  let s1 : ExtState := ⟨s.status, s.products, true, s.selectedVariants⟩
  match loadBody formatCurrency q with
  | some (fetched, initialSelected) => ⟨s1.status, fetched, false, initialSelected⟩
  | none =>
    ⟨some ⟨"critical", "Failed to fetch product details"⟩, s1.products, false, s1.selectedVariants⟩

/-! ## Selection state -/

/-- The function `handleVariantChange` (lines 140-145): the updater
`prev => ({ ...prev, [productHeading]: variantId })` applied to the state. -/
def handleVariantChange (productHeading variantId : String) (s : ExtState) : ExtState :=
  ⟨s.status, s.products, s.loading, setKey s.selectedVariants productHeading variantId⟩

/-! ## Cart reconciler -/

/-- The `merchandise` object of a cart line. -/
structure Merchandise where
  id : String
deriving DecidableEq, Repr

/-- A cart line as delivered by `useCartLines`. -/
structure CartLine where
  merchandise : Merchandise
deriving DecidableEq, Repr

/-- Line 111: the set of merchandise ids in the cart. -/
def cartVariantIds (cartLines : List CartLine) : List String :=
  cartLines.map fun line => line.merchandise.id

/-- The call `cartVariantIds.has(x)`; only a string can equal a line id. -/
def cartHas (ids : List String) (x : JsVal) : Bool :=
  match x with
  | JsVal.str v => decide (v ∈ ids)
  | _ => false

/-- The argument of `applyCartLinesChange`. -/
structure CartLineChange where
  type : String
  merchandiseId : JsVal
  quantity : Nat
deriving DecidableEq, Repr

/-- The value `applyCartLinesChange` resolves with. -/
structure ChangeResult where
  type : String
  message : Option String
deriving DecidableEq, Repr

/-- What awaiting `applyCartLinesChange(...)` yields. -/
inductive MutationOutcome where
  | resolved (result : ChangeResult)
  | thrown (error : String)
deriving DecidableEq, Repr

/-- String conversion inside a template literal. -/
def interp (x : Option String) : String :=
  match x with
  | some s => s
  | none => "undefined"

/-- The observable effects of one `handleAddToCart` call: the requests passed to
`applyCartLinesChange` and the console lines. -/
structure Effects where
  calls : List CartLineChange
  console : List String
deriving DecidableEq, Repr

/-- The function `handleAddToCart` (lines 113-138). -/
def handleAddToCart (applyCartLinesChange : CartLineChange → MutationOutcome)
    (cartLines : List CartLine) (variantId : JsVal) (heading : String)
    (s : ExtState) : ExtState × Effects :=
  if cartHas (cartVariantIds cartLines) variantId then
    (⟨some ⟨"info", heading ++ " is already in the cart"⟩, s.products, s.loading,
        s.selectedVariants⟩,
      ⟨[], [heading ++ " is already in the cart"]⟩)
  else
    let request : CartLineChange := ⟨"addCartLine", variantId, 1⟩
    match applyCartLinesChange request with
    | MutationOutcome.resolved result =>
      if result.type = "error" then
        (⟨some ⟨"critical", "Failed to add " ++ heading ++ ": " ++ interp result.message⟩,
            s.products, s.loading, s.selectedVariants⟩,
          ⟨[request], ["Error adding " ++ heading ++ " to cart: " ++ interp result.message]⟩)
      else
        (⟨some ⟨"success", heading ++ " added to cart successfully"⟩, s.products, s.loading,
            s.selectedVariants⟩,
          ⟨[request], [heading ++ " added to cart"]⟩)
    | MutationOutcome.thrown error =>
      (⟨some ⟨"critical", "An unexpected error occurred while adding " ++ heading⟩, s.products,
          s.loading, s.selectedVariants⟩,
        ⟨[request], ["Unexpected error adding " ++ heading ++ " to cart: " ++ error]⟩)

/-- Invoke `handleAddToCart` `n` times in a row with the same arguments and the
same cart snapshot, collecting every request issued. -/
def repeatAdd (applyCartLinesChange : CartLineChange → MutationOutcome)
    (cartLines : List CartLine) (variantId : JsVal) (heading : String) :
    Nat → ExtState → ExtState × List CartLineChange
  | 0, s => (s, [])
  | n + 1, s =>
    let r := handleAddToCart applyCartLinesChange cartLines variantId heading s
    let r2 := repeatAdd applyCartLinesChange cartLines variantId heading n r.1
    (r2.1, r.2.calls ++ r2.2)

/-! ## Render: one product card -/

/-- The props of the `Select` of lines 202-210. -/
structure SelectProps where
  label : String
  value : JsVal
  options : List (String × String)
deriving DecidableEq, Repr

/-- What the `products.map` callback (lines 179-225) renders for one product. -/
structure Card where
  imageSource : String
  accessibilityDescription : String
  heading : String
  price : String
  select : Option SelectProps
  variantTitle : Option String
  pressVariantId : JsVal
  pressHeading : String
  disabled : Bool
  buttonLabel : String
deriving DecidableEq, Repr

/-- Lines 180-182: `product.variants.find(v => v.id === selectedVariants[heading])
|| product.variants[0]`; `none` when the group has no variant at all. -/
def selectedVariant (selectedVariants : Selection) (product : ProductGroup) : Option Variant :=
  match product.variants.find?
      (fun variant =>
        decide (JsVal.str variant.id = readKey selectedVariants product.heading)) with
  | some v => some v
  | none => product.variants.head?

/-- The `products.map` callback of lines 179-225. -/
def renderCard (cartLines : List CartLine) (selectedVariants : Selection)
    (product : ProductGroup) : Option Card := do
  let sel ← selectedVariant selectedVariants product
  let first ← product.variants.head?
  let chosen := readKey selectedVariants product.heading
  let inCart := cartHas (cartVariantIds cartLines) chosen
  pure ⟨sel.image, product.heading ++ " image", product.heading, sel.price,
    if product.variants.length > 1 then
      some ⟨"Select Variant", valOr chosen first.id,
        product.variants.map fun variant => (variant.id, variant.title ++ " - " ++ variant.price)⟩
    else none,
    if product.variants.length > 1 then none else some sel.title,
    chosen, product.heading, inCart,
    if inCart then "In Cart" else "Add to Cart"⟩

/-- The `onPress` handler of the card button (lines 216-218). -/
def pressAdd (applyCartLinesChange : CartLineChange → MutationOutcome)
    (cartLines : List CartLine) (card : Card) (s : ExtState) : ExtState × Effects :=
  handleAddToCart applyCartLinesChange cartLines card.pressVariantId card.pressHeading s

/-! ## Failure shapes of a load -/

/-- A node on which the reducer callback throws: `null`, or lacking `product`, or
lacking `priceV2`. -/
def malformed (node : Option Node) : Bool :=
  match node with
  | none => true
  | some n => n.product.isNone || n.priceV2.isNone

/-- A load that fails: the query rejects, `data` or `nodes` is missing, or some
node of the list is malformed. -/
def loadFails (q : QueryOutcome) : Bool :=
  match q with
  | QueryOutcome.rejected _ => true
  | QueryOutcome.resolved r =>
    match r.data with
    | none => true
    | some d =>
      match d.nodes with
      | none => true
      | some nodes => nodes.any malformed

/-! ## Auxiliary definitions for the proofs -/

/-- The grouping reduce on the title/variant pairs of well-formed nodes, from an
arbitrary accumulator. -/
def groupEntries (acc : List ProductGroup) (es : List (String × Variant)) : List ProductGroup :=
  es.foldl (fun a e => insertVariant a e.1 e.2) acc

/-- The title/variant pairs of the nodes of a response, in response order. -/
def entriesOf (formatCurrency : String → String → String) (nodes : List (Option Node)) :
    List (String × Variant) :=
  nodes.filterMap (nodeEntry formatCurrency)

/-- The invariant of the grouping reduce after the entries `es`. -/
structure Grouped (es : List (String × Variant)) (G : List ProductGroup) : Prop where
  nodup : (G.map ProductGroup.heading).Nodup
  mem : ∀ t : String, t ∈ G.map ProductGroup.heading ↔ t ∈ es.map Prod.fst
  vars : ∀ g ∈ G, g.variants = (es.filter (fun e => decide (e.1 = g.heading))).map Prod.snd
  order : (G.map ProductGroup.heading).Pairwise
    (fun a b => (es.map Prod.fst).indexOf a < (es.map Prod.fst).indexOf b)

/-- The title and variant the reducer callback reads off a node that has a
`product` and a `priceV2`. -/
def entryOf (formatCurrency : String → String → String) (n : Node) : String × Variant :=
  ((n.product.map Product.title).getD "",
    ⟨n.id, n.title, (n.priceV2.map fun p => formatCurrency p.amount p.currencyCode).getD "",
      strOr (n.image.bind fun i => i.url) placeholderImage⟩)

/-- The groups whose heading is not "__proto__". -/
def plainGroups (G : List ProductGroup) : List ProductGroup :=
  G.filter fun g => decide (g.heading ≠ "__proto__")

/-- The heading and first variant id of every group that has a first variant. -/
def firstIds (G : List ProductGroup) : Selection :=
  G.filterMap fun g => g.variants.head?.map fun v => (g.heading, v.id)

/-! ## Sample data -/

/-- A stand-in for `i18n.formatCurrency`: currency code, a blank, the amount. -/
def sampleFormat (amount currencyCode : String) : String :=
  currencyCode ++ " " ++ amount

/-- A response with four variants of two products, three of "Widget" and one of
"Gadget", the "Gadget" one in second place. -/
def scenarioA : List Node :=
  [⟨"v1", "Small", some ⟨"10.0", "USD"⟩, none, some ⟨"Widget"⟩⟩,
   ⟨"g1", "Default Title", some ⟨"5.0", "USD"⟩,
     some ⟨some "https://cdn.example/g1.png", none⟩, some ⟨"Gadget"⟩⟩,
   ⟨"v2", "Medium", some ⟨"11.0", "USD"⟩, some ⟨none, none⟩, some ⟨"Widget"⟩⟩,
   ⟨"v3", "Large", some ⟨"12.0", "USD"⟩, some ⟨some "", none⟩, some ⟨"Widget"⟩⟩]

/-- The groups the loader builds from `scenarioA`. -/
def scenarioAGroups : List ProductGroup :=
  [⟨"Widget", [⟨"v1", "Small", "USD 10.0", placeholderImage⟩,
      ⟨"v2", "Medium", "USD 11.0", placeholderImage⟩,
      ⟨"v3", "Large", "USD 12.0", placeholderImage⟩]⟩,
   ⟨"Gadget", [⟨"g1", "Default Title", "USD 5.0", "https://cdn.example/g1.png"⟩]⟩]

/-- A response with a single variant, of a product titled "__proto__". -/
def protoResponse : List (Option Node) :=
  [some ⟨"p1", "Default Title", some ⟨"7.0", "USD"⟩, none, some ⟨"__proto__"⟩⟩]

/-- The group the loader builds from `protoResponse`. -/
def protoGroups : List ProductGroup :=
  [⟨"__proto__", [⟨"p1", "Default Title", "USD 7.0", placeholderImage⟩]⟩]

/-- A response whose first node is well-formed and whose second node has no
`product`. -/
def brokenResponse : QueryOutcome :=
  QueryOutcome.resolved ⟨some ⟨some
    [some ⟨"v1", "Small", some ⟨"10.0", "USD"⟩, none, some ⟨"Widget"⟩⟩,
     some ⟨"v2", "Medium", some ⟨"11.0", "USD"⟩, none, none⟩]⟩⟩

/-- A node whose image carries the empty string as URL. -/
def emptyUrlNode : Node :=
  ⟨"v1", "Small", some ⟨"10.0", "USD"⟩, some ⟨some "", none⟩, some ⟨"Widget"⟩⟩

/-- A node whose image carries a URL. -/
def pictureNode : Node :=
  ⟨"g1", "Default Title", some ⟨"5.0", "USD"⟩,
    some ⟨some "https://cdn.example/g1.png", none⟩, some ⟨"Gadget"⟩⟩

/-- A product with two variants. -/
def widgetGroup : ProductGroup :=
  ⟨"Widget", [⟨"v1", "Small", "USD 10.0", "https://cdn.example/v1.png"⟩,
    ⟨"v2", "Large", "USD 12.0", "https://cdn.example/v2.png"⟩]⟩

/-- The state after a load of `widgetGroup` followed by
`handleVariantChange("Widget", "v9")`, where "v9" is no variant of the group. -/
def strayState : ExtState :=
  handleVariantChange "Widget" "v9" ⟨none, [widgetGroup], false, [("Widget", "v1")]⟩

/-- A cart holding the first variant of `widgetGroup`. -/
def widgetCart : List CartLine := [⟨⟨"v1"⟩⟩]

/-! ## Lemmas: dictionary -/

theorem getKey_setKey_same (obj : Selection) (k v : String) :
    getKey (setKey obj k v) k = some v := by
  induction obj with
  | nil => simp [setKey, getKey]
  | cons p rest ih =>
    obtain ⟨k0, v0⟩ := p
    by_cases h : k0 = k
    · simp [setKey, getKey, h]
    · simp [setKey, getKey, h, ih]

theorem getKey_setKey_other (obj : Selection) (k v k2 : String) (hne : k2 ≠ k) :
    getKey (setKey obj k v) k2 = getKey obj k2 := by
  induction obj with
  | nil =>
    have : ¬ k = k2 := fun h => hne h.symm
    simp [setKey, getKey, this]
  | cons p rest ih =>
    obtain ⟨k0, v0⟩ := p
    by_cases h : k0 = k
    · subst h
      have : ¬ k0 = k2 := fun h => hne h.symm
      simp [setKey, getKey, this]
    · by_cases h2 : k0 = k2
      · subst h2
        simp [setKey, getKey, h]
      · simp [setKey, getKey, h, h2, ih]

theorem cartHas_of_line (cartLines : List CartLine) (variantId : JsVal)
    (hin : ∃ line ∈ cartLines, JsVal.str line.merchandise.id = variantId) :
    cartHas (cartVariantIds cartLines) variantId = true := by
  obtain ⟨line, hl, rfl⟩ := hin
  simp only [cartHas, cartVariantIds, decide_eq_true_eq, List.mem_map]
  exact ⟨line, hl, rfl⟩

theorem cartHas_of_no_line (cartLines : List CartLine) (variantId : JsVal)
    (hout : ∀ line ∈ cartLines, JsVal.str line.merchandise.id ≠ variantId) :
    cartHas (cartVariantIds cartLines) variantId = false := by
  cases variantId with
  | undefined => rfl
  | inherited k => rfl
  | str v =>
    simp only [cartHas, cartVariantIds, decide_eq_false_iff_not, List.mem_map, not_exists, not_and]
    intro line hl heq
    exact hout line hl (by rw [heq])

/-! ## Lemmas: the grouping fold -/

theorem nodeEntry_malformed (fmt : String → String → String) (node : Option Node)
    (h : malformed node = true) : nodeEntry fmt node = none := by
  cases node with
  | none => rfl
  | some n =>
    obtain ⟨id, title, price, image, product⟩ := n
    cases product <;> cases price <;> simp_all [malformed, nodeEntry, mkVariant]

theorem foldlM_groupStep_none (fmt : String → String → String) (nodes : List (Option Node)) :
    ∀ acc : List ProductGroup, (∃ node ∈ nodes, nodeEntry fmt node = none) →
      nodes.foldlM (groupStep fmt) acc = none := by
  induction nodes with
  | nil => intro acc h; simp at h
  | cons a l ih =>
    intro acc h
    cases ha : nodeEntry fmt a with
    | none => simp [List.foldlM, groupStep, ha]
    | some e =>
      have hl : ∃ node ∈ l, nodeEntry fmt node = none := by
        obtain ⟨node, hmem, hnone⟩ := h
        rcases List.mem_cons.1 hmem with rfl | hmem
        · rw [ha] at hnone; cases hnone
        · exact ⟨node, hmem, hnone⟩
      simp [List.foldlM, groupStep, ha, ih _ hl]

theorem foldlM_groupStep_some (fmt : String → String → String) (nodes : List (Option Node)) :
    ∀ acc : List ProductGroup, (∀ node ∈ nodes, (nodeEntry fmt node).isSome = true) →
      nodes.foldlM (groupStep fmt) acc = some (groupEntries acc (entriesOf fmt nodes)) := by
  induction nodes with
  | nil => intro acc _; rfl
  | cons a l ih =>
    intro acc h
    have ha := h a (List.mem_cons_self a l)
    obtain ⟨e, he⟩ := Option.isSome_iff_exists.1 ha
    have hl : ∀ node ∈ l, (nodeEntry fmt node).isSome = true :=
      fun node hmem => h node (List.mem_cons_of_mem a hmem)
    simp [List.foldlM, groupStep, he, ih _ hl, entriesOf, groupEntries, List.filterMap_cons]

theorem insertVariant_of_not_mem (G : List ProductGroup) (t : String) (v : Variant)
    (h : t ∉ G.map ProductGroup.heading) : insertVariant G t v = G ++ [⟨t, [v]⟩] := by
  have hf : G.find? (fun p => decide (p.heading = t)) = none := by
    rw [List.find?_eq_none]
    intro x hx hp
    exact h (List.mem_map.2 ⟨x, hx, by simpa using hp⟩)
  simp [insertVariant, hf]

theorem insertVariant_of_mem (G : List ProductGroup) (t : String) (v : Variant)
    (h : t ∈ G.map ProductGroup.heading) : insertVariant G t v = pushVariant G t v := by
  cases hf : G.find? (fun p => decide (p.heading = t)) with
  | none =>
    rw [List.find?_eq_none] at hf
    obtain ⟨x, hx, hxt⟩ := List.mem_map.1 h
    exact absurd (by simpa using hxt) (hf x hx)
  | some p => simp [insertVariant, hf]

theorem pushVariant_eq_map (G : List ProductGroup) (t : String) (v : Variant)
    (hnd : (G.map ProductGroup.heading).Nodup) :
    pushVariant G t v =
      G.map (fun g => if g.heading = t then ⟨g.heading, g.variants ++ [v]⟩ else g) := by
  induction G with
  | nil => rfl
  | cons p ps ih =>
    rw [List.map_cons, List.nodup_cons] at hnd
    by_cases hp : p.heading = t
    · have hps : ∀ g ∈ ps, ¬ g.heading = t := by
        intro g hg e
        exact hnd.1 (List.mem_map.2 ⟨g, hg, by rw [e, hp]⟩)
      have hmap : ps.map (fun g => if g.heading = t then
          (⟨g.heading, g.variants ++ [v]⟩ : ProductGroup) else g) = ps := by
        conv_rhs => rw [← List.map_id ps]
        apply List.map_congr_left
        intro g hg
        simp [hps g hg]
      simp [pushVariant, hp, hmap]
    · simp [pushVariant, hp, ih hnd.2]

theorem Grouped.nil : Grouped [] [] :=
  ⟨by simp, by simp, by simp, by simp⟩

theorem Grouped.step {es : List (String × Variant)} {G : List ProductGroup} (h : Grouped es G)
    (t : String) (v : Variant) : Grouped (es ++ [(t, v)]) (insertVariant G t v) := by
  by_cases ht : t ∈ G.map ProductGroup.heading
  · have hes : t ∈ es.map Prod.fst := (h.mem t).1 ht
    rw [insertVariant_of_mem G t v ht, pushVariant_eq_map G t v h.nodup]
    have hhead : (G.map (fun g => if g.heading = t then
        (⟨g.heading, g.variants ++ [v]⟩ : ProductGroup) else g)).map ProductGroup.heading
          = G.map ProductGroup.heading := by
      rw [List.map_map]
      apply List.map_congr_left
      intro g _
      by_cases hg : g.heading = t <;> simp [hg]
    refine ⟨by rw [hhead]; exact h.nodup, ?_, ?_, ?_⟩
    · intro t2
      rw [hhead, h.mem t2]
      simp only [List.map_append, List.mem_append, List.map_cons, List.map_nil,
        List.mem_singleton]
      constructor
      · exact fun h2 => Or.inl h2
      · rintro (h2 | rfl)
        · exact h2
        · exact hes
    · intro g2 hg2
      obtain ⟨g, hg, rfl⟩ := List.mem_map.1 hg2
      by_cases hgt : g.heading = t
      · simp [hgt, List.filter_append, h.vars g hg]
      · have hne : ¬ t = g.heading := fun e => hgt e.symm
        simp [hgt, hne, List.filter_append, h.vars g hg]
    · rw [hhead]
      refine List.Pairwise.imp_of_mem ?_ h.order
      intro a b ha hb hab
      have ha2 : a ∈ es.map Prod.fst := (h.mem a).1 ha
      have hb2 : b ∈ es.map Prod.fst := (h.mem b).1 hb
      rw [List.map_append, List.indexOf_append_of_mem ha2, List.indexOf_append_of_mem hb2]
      exact hab
  · have hes : t ∉ es.map Prod.fst := fun e => ht ((h.mem t).2 e)
    rw [insertVariant_of_not_mem G t v ht]
    refine ⟨?_, ?_, ?_, ?_⟩
    · rw [List.map_append, List.nodup_append]
      refine ⟨h.nodup, by simp, ?_⟩
      intro a ha hb
      simp only [List.map_cons, List.map_nil, List.mem_singleton] at hb
      exact ht (hb ▸ ha)
    · intro t2
      simp only [List.map_append, List.mem_append, List.map_cons, List.map_nil,
        List.mem_singleton, h.mem t2]
    · intro g hg
      rcases List.mem_append.1 hg with hg | hg
      · have hne : ¬ t = g.heading := fun e => ht (List.mem_map.2 ⟨g, hg, e.symm⟩)
        simp [hne, List.filter_append, h.vars g hg]
      · simp only [List.mem_singleton] at hg
        subst hg
        have hnil : es.filter (fun e => decide (e.1 = t)) = [] := by
          rw [List.filter_eq_nil_iff]
          intro e he hp
          exact hes (List.mem_map.2 ⟨e, he, by simpa using hp⟩)
        simp [List.filter_append, hnil]
    · simp only [List.map_append, List.map_cons, List.map_nil]
      rw [List.pairwise_append]
      refine ⟨?_, by simp, ?_⟩
      · refine List.Pairwise.imp_of_mem ?_ h.order
        intro a b ha hb hab
        have ha2 : a ∈ es.map Prod.fst := (h.mem a).1 ha
        have hb2 : b ∈ es.map Prod.fst := (h.mem b).1 hb
        rw [List.indexOf_append_of_mem ha2, List.indexOf_append_of_mem hb2]
        exact hab
      · intro a ha b hb
        simp only [List.mem_singleton] at hb
        subst hb
        have ha2 : a ∈ es.map Prod.fst := (h.mem a).1 ha
        rw [List.indexOf_append_of_mem ha2, List.indexOf_append_of_not_mem hes]
        have := List.indexOf_lt_length.2 ha2
        simp only [List.indexOf_cons_self]
        omega

theorem grouped_groupEntries (es : List (String × Variant)) : Grouped es (groupEntries [] es) := by
  induction es using List.reverseRecOn with
  | nil => exact Grouped.nil
  | append_singleton l e ih =>
    have : groupEntries [] (l ++ [e]) = insertVariant (groupEntries [] l) e.1 e.2 := by
      simp [groupEntries, List.foldl_append]
    rw [this]
    exact ih.step e.1 e.2

theorem fetchedProducts_eq_some (fmt : String → String → String) (nodes : List (Option Node))
    (groups : List ProductGroup) (h : fetchedProducts fmt nodes = some groups) :
    (∀ node ∈ nodes, (nodeEntry fmt node).isSome = true) ∧
      groups = groupEntries [] (entriesOf fmt nodes) := by
  by_cases hall : ∀ node ∈ nodes, (nodeEntry fmt node).isSome = true
  · refine ⟨hall, ?_⟩
    have h2 := foldlM_groupStep_some fmt nodes [] hall
    rw [fetchedProducts] at h
    rw [h2] at h
    exact (Option.some.inj h).symm
  · exfalso
    have hex : ∃ node ∈ nodes, nodeEntry fmt node = none := by
      by_contra hno
      apply hall
      intro node hmem
      cases hn : nodeEntry fmt node with
      | none => exact absurd ⟨node, hmem, hn⟩ hno
      | some e => rfl
    have h2 := foldlM_groupStep_none fmt nodes [] hex
    rw [fetchedProducts] at h
    rw [h2] at h
    cases h

theorem Grouped.variants_ne_nil {es : List (String × Variant)} {G : List ProductGroup}
    (h : Grouped es G) : ∀ g ∈ G, g.variants ≠ [] := by
  intro g hg hnil
  have hm : g.heading ∈ es.map Prod.fst := (h.mem g.heading).1 (List.mem_map.2 ⟨g, hg, rfl⟩)
  obtain ⟨e, he, het⟩ := List.mem_map.1 hm
  have hv := h.vars g hg
  rw [hnil] at hv
  have hf : e ∈ es.filter (fun e => decide (e.1 = g.heading)) :=
    List.mem_filter.2 ⟨he, by simpa using het⟩
  have hs : e.2 ∈ (es.filter (fun e => decide (e.1 = g.heading))).map Prod.snd :=
    List.mem_map.2 ⟨e, hf, rfl⟩
  rw [← hv] at hs
  cases hs

/-! ## Lemmas: the initial selection fold -/

theorem setKey_of_not_mem (obj : Selection) (k v : String) (h : k ∉ obj.map Prod.fst) :
    setKey obj k v = obj ++ [(k, v)] := by
  induction obj with
  | nil => rfl
  | cons p rest ih =>
    obtain ⟨k0, v0⟩ := p
    have h0 : ¬ k0 = k := fun e => h (by simp [e])
    have hr : k ∉ rest.map Prod.fst := fun e => h (by simp [e])
    simp [setKey, h0, ih hr]

theorem getKey_of_not_mem (obj : Selection) (k : String) (h : k ∉ obj.map Prod.fst) :
    getKey obj k = none := by
  induction obj with
  | nil => rfl
  | cons p rest ih =>
    obtain ⟨k0, v0⟩ := p
    have h0 : ¬ k0 = k := fun e => h (by simp [e])
    have hr : k ∉ rest.map Prod.fst := fun e => h (by simp [e])
    simp [getKey, h0, ih hr]

theorem assignKey_of_ne (obj : Selection) (k v : String) (h : k ≠ "__proto__") :
    assignKey obj k v = setKey obj k v := by
  simp [assignKey, h]

theorem assignKey_proto (obj : Selection) (v : String) (h : "__proto__" ∉ obj.map Prod.fst) :
    assignKey obj "__proto__" v = obj := by
  simp [assignKey, getKey_of_not_mem obj "__proto__" h]

theorem foldlM_selectStep (G : List ProductGroup) :
    ∀ acc : Selection, (∀ g ∈ G, g.variants ≠ []) → (G.map ProductGroup.heading).Nodup →
      (∀ g ∈ G, g.heading ∉ acc.map Prod.fst) → "__proto__" ∉ acc.map Prod.fst →
      G.foldlM selectStep acc = some (acc ++ firstIds (plainGroups G)) := by
  induction G with
  | nil => intro acc _ _ _ _; simp [firstIds, plainGroups]
  | cons g gs ih =>
    intro acc hne hnd hacc hproto
    rw [List.map_cons, List.nodup_cons] at hnd
    obtain ⟨heading, variants⟩ := g
    cases variants with
    | nil => exact absurd rfl (hne ⟨heading, []⟩ (List.mem_cons_self _ _))
    | cons v rest =>
      have hne2 : ∀ g2 ∈ gs, g2.variants ≠ [] :=
        fun g2 hg2 => hne g2 (List.mem_cons_of_mem _ hg2)
      by_cases hp : heading = "__proto__"
      · subst hp
        have hrec := ih acc hne2 hnd.2
          (fun g2 hg2 => hacc g2 (List.mem_cons_of_mem _ hg2)) hproto
        simp [List.foldlM, selectStep, assignKey_proto acc v.id hproto, hrec, plainGroups]
      · have hk : heading ∉ acc.map Prod.fst :=
          hacc ⟨heading, v :: rest⟩ (List.mem_cons_self _ _)
        have hacc2 : ∀ g2 ∈ gs, g2.heading ∉ (acc ++ [(heading, v.id)]).map Prod.fst := by
          intro g2 hg2 hm
          simp only [List.map_append, List.mem_append, List.map_cons, List.map_nil,
            List.mem_singleton] at hm
          rcases hm with hm | hm
          · exact hacc g2 (List.mem_cons_of_mem _ hg2) hm
          · exact hnd.1 (List.mem_map.2 ⟨g2, hg2, hm⟩)
        have hproto2 : "__proto__" ∉ (acc ++ [(heading, v.id)]).map Prod.fst := by
          intro hm
          simp only [List.map_append, List.mem_append, List.map_cons, List.map_nil,
            List.mem_singleton] at hm
          rcases hm with hm | hm
          · exact hproto hm
          · exact hp hm.symm
        have hrec := ih (acc ++ [(heading, v.id)]) hne2 hnd.2 hacc2 hproto2
        simp [List.foldlM, selectStep, assignKey_of_ne acc heading v.id hp,
          setKey_of_not_mem acc heading v.id hk, hrec, firstIds, plainGroups, hp]

theorem firstIds_keys (G : List ProductGroup) (hne : ∀ g ∈ G, g.variants ≠ []) :
    (firstIds G).map Prod.fst = G.map ProductGroup.heading := by
  induction G with
  | nil => rfl
  | cons g gs ih =>
    obtain ⟨heading, variants⟩ := g
    cases variants with
    | nil => exact absurd rfl (hne ⟨heading, []⟩ (List.mem_cons_self _ _))
    | cons v rest =>
      have hrec := ih (fun g2 hg2 => hne g2 (List.mem_cons_of_mem _ hg2))
      simp only [firstIds] at hrec
      simp [firstIds, hrec]

theorem getKey_firstIds (G : List ProductGroup) (hnd : (G.map ProductGroup.heading).Nodup) :
    ∀ g ∈ G, ∀ (v : Variant) (rest : List Variant), g.variants = v :: rest →
      getKey (firstIds G) g.heading = some v.id := by
  induction G with
  | nil => intro g hg; cases hg
  | cons p ps ih =>
    rw [List.map_cons, List.nodup_cons] at hnd
    intro g hg v rest hv
    rcases List.mem_cons.1 hg with rfl | hmem
    · simp [firstIds, hv, getKey]
    · have hne : ¬ p.heading = g.heading := fun e =>
        hnd.1 (List.mem_map.2 ⟨g, hmem, e.symm⟩)
      have hrec := ih hnd.2 g hmem v rest hv
      simp only [firstIds] at hrec
      cases hp : p.variants with
      | nil => simp [firstIds, hp, hrec]
      | cons w ws => simp [firstIds, hp, getKey, hne, hrec]

/-- The initial selection of any load: the reduce returns a selection, a successful
load stores it with the groups, and the selection has exactly one entry per group
heading other than "__proto__", each the identifier of the first variant of its
group. -/
theorem initialSelectedVariants_entries (fmt : String → String → String)
    (nodes : List (Option Node)) (groups : List ProductGroup)
    (hload : fetchedProducts fmt nodes = some groups) :
    ∃ sel : Selection, initialSelectedVariants groups = some sel ∧
      (∀ s : ExtState,
        (fetchProductDetails fmt (QueryOutcome.resolved ⟨some ⟨some nodes⟩⟩) s).products = groups ∧
        (fetchProductDetails fmt (QueryOutcome.resolved ⟨some ⟨some nodes⟩⟩) s).selectedVariants
          = sel) ∧
      sel.map Prod.fst = (plainGroups groups).map ProductGroup.heading ∧
      (sel.map Prod.fst).Nodup ∧
      ∀ g ∈ groups, g.heading ≠ "__proto__" → ∃ (v : Variant) (rest : List Variant),
        g.variants = v :: rest ∧ getKey sel g.heading = some v.id := by
  obtain ⟨_, hgroups⟩ := fetchedProducts_eq_some fmt nodes groups hload
  have hG : Grouped (entriesOf fmt nodes) groups := by
    rw [hgroups]; exact grouped_groupEntries _
  have hne := hG.variants_ne_nil
  have hfold : initialSelectedVariants groups = some (firstIds (plainGroups groups)) := by
    have h := foldlM_selectStep groups [] hne hG.nodup (fun g _ hm => by simp at hm)
      (by simp)
    simpa [initialSelectedVariants] using h
  have hsub : List.Sublist (plainGroups groups) groups := List.filter_sublist groups
  have hne2 : ∀ g ∈ plainGroups groups, g.variants ≠ [] :=
    fun g hg => hne g (hsub.subset hg)
  have hnd2 : ((plainGroups groups).map ProductGroup.heading).Nodup :=
    hG.nodup.sublist (hsub.map _)
  have hkeys := firstIds_keys (plainGroups groups) hne2
  refine ⟨firstIds (plainGroups groups), hfold, ?_, hkeys, by rw [hkeys]; exact hnd2, ?_⟩
  · intro s
    simp [fetchProductDetails, loadBody, hload, hfold]
  · intro g hg hp
    have hg2 : g ∈ plainGroups groups := List.mem_filter.2 ⟨hg, by simpa using hp⟩
    cases hv : g.variants with
    | nil => exact absurd hv (hne g hg)
    | cons v rest =>
      exact ⟨v, rest, rfl, getKey_firstIds (plainGroups groups) hnd2 g hg2 v rest hv⟩

/-! ## Lemmas: well-formed nodes -/

theorem nodeEntry_entryOf (fmt : String → String → String) (n : Node)
    (h : n.product.isSome = true ∧ n.priceV2.isSome = true) :
    nodeEntry fmt (some n) = some (entryOf fmt n) := by
  obtain ⟨id, title, price, image, product⟩ := n
  cases product <;> cases price <;> simp_all [nodeEntry, mkVariant, entryOf]

theorem parentTitle_entryOf (fmt : String → String → String) (n : Node)
    (h : n.product.isSome = true ∧ n.priceV2.isSome = true) :
    n.product.map Product.title = some (entryOf fmt n).1 := by
  obtain ⟨id, title, price, image, product⟩ := n
  cases product <;> simp_all [entryOf]

theorem entriesOf_map_some (fmt : String → String → String) (ns : List Node)
    (hwf : ∀ n ∈ ns, n.product.isSome = true ∧ n.priceV2.isSome = true) :
    entriesOf fmt (ns.map some) = ns.map (entryOf fmt) := by
  induction ns with
  | nil => rfl
  | cons a l ih =>
    have ha := nodeEntry_entryOf fmt a (hwf a (List.mem_cons_self a l))
    have hl := ih (fun n hn => hwf n (List.mem_cons_of_mem a hn))
    simp only [entriesOf] at hl
    simp [entriesOf, List.filterMap_cons, ha, hl]

theorem findIdx_parentTitle (fmt : String → String → String) (a : String) (ns : List Node)
    (hwf : ∀ n ∈ ns, n.product.isSome = true ∧ n.priceV2.isSome = true) :
    ns.findIdx (fun n => decide (n.product.map Product.title = some a))
      = ((ns.map (entryOf fmt)).map Prod.fst).indexOf a := by
  induction ns with
  | nil => rfl
  | cons b l ih =>
    have hb := parentTitle_entryOf fmt b (hwf b (List.mem_cons_self b l))
    have hl := ih (fun n hn => hwf n (List.mem_cons_of_mem b hn))
    by_cases he : (entryOf fmt b).1 = a
    · have hp : b.product.map Product.title = some a := by rw [hb, he]
      rw [List.findIdx_cons, List.map_cons, List.map_cons, List.indexOf_cons_eq _ he]
      simp [hp]
    · have hp : ¬ b.product.map Product.title = some a := by
        rw [hb]
        exact fun e => he (Option.some.inj e)
      rw [List.findIdx_cons, List.map_cons, List.map_cons, List.indexOf_cons_ne _ he, ← hl]
      simp [hp]

theorem loadFails_loadBody (fmt : String → String → String) (q : QueryOutcome)
    (h : loadFails q = true) : loadBody fmt q = none := by
  cases q with
  | rejected e => rfl
  | resolved r =>
    obtain ⟨data⟩ := r
    cases data with
    | none => rfl
    | some d =>
      obtain ⟨nodes⟩ := d
      cases nodes with
      | none => rfl
      | some ns =>
        simp only [loadFails, List.any_eq_true] at h
        obtain ⟨node, hmem, hbad⟩ := h
        have hnone : fetchedProducts fmt ns = none :=
          foldlM_groupStep_none fmt ns [] ⟨node, hmem, nodeEntry_malformed fmt node hbad⟩
        simp [loadBody, hnone]

/-! ## Selection state and cart reconciler: properties -/

/-- C3 (selection isolation): after `handleVariantChange h v` the entry for `h` is
`v`, and the entry for every other heading is what it was before, present with the
same value or absent in both. -/
theorem handleVariantChange_isolation (s : ExtState) (h v : String) :
    getKey (handleVariantChange h v s).selectedVariants h = some v ∧
    ∀ h2 : String, h2 ≠ h →
      getKey (handleVariantChange h v s).selectedVariants h2 = getKey s.selectedVariants h2 :=
  ⟨getKey_setKey_same _ _ _, fun h2 hne => getKey_setKey_other _ _ _ h2 hne⟩

theorem handleVariantChange_isolation_witness :
    getKey (handleVariantChange "Widget" "v2"
        ⟨none, [], false, [("Widget", "v1"), ("Gadget", "g1")]⟩).selectedVariants "Widget"
      = some "v2" ∧
    getKey (handleVariantChange "Widget" "v2"
        ⟨none, [], false, [("Widget", "v1"), ("Gadget", "g1")]⟩).selectedVariants "Gadget"
      = getKey [("Widget", "v1"), ("Gadget", "g1")] "Gadget" :=
  ⟨(handleVariantChange_isolation ⟨none, [], false, [("Widget", "v1"), ("Gadget", "g1")]⟩
      "Widget" "v2").1,
   (handleVariantChange_isolation ⟨none, [], false, [("Widget", "v1"), ("Gadget", "g1")]⟩
      "Widget" "v2").2 "Gadget" (by decide)⟩

/-- C4 (idempotent add guard): when some cart line carries the variant id,
`handleAddToCart` issues no `applyCartLinesChange` request and sets the status to
the informational "already in the cart" notice; any positive number of consecutive
invocations with the same snapshot issues no request and leaves that status. -/
theorem handleAddToCart_guard (applyCartLinesChange : CartLineChange → MutationOutcome)
    (cartLines : List CartLine) (variantId : JsVal) (heading : String) (s : ExtState)
    (hin : ∃ line ∈ cartLines, JsVal.str line.merchandise.id = variantId) :
    (handleAddToCart applyCartLinesChange cartLines variantId heading s).2.calls = [] ∧
    (handleAddToCart applyCartLinesChange cartLines variantId heading s).1.status
      = some ⟨"info", heading ++ " is already in the cart"⟩ ∧
    ∀ n : Nat,
      (repeatAdd applyCartLinesChange cartLines variantId heading (n + 1) s).2 = [] ∧
      (repeatAdd applyCartLinesChange cartLines variantId heading (n + 1) s).1.status
        = some ⟨"info", heading ++ " is already in the cart"⟩ := by
  have hc := cartHas_of_line cartLines variantId hin
  have step : ∀ t : ExtState,
      handleAddToCart applyCartLinesChange cartLines variantId heading t =
        (⟨some ⟨"info", heading ++ " is already in the cart"⟩, t.products, t.loading,
            t.selectedVariants⟩,
          ⟨[], [heading ++ " is already in the cart"]⟩) := by
    intro t
    simp [handleAddToCart, hc]
  refine ⟨by rw [step], by rw [step], ?_⟩
  intro n
  induction n generalizing s with
  | zero => simp [repeatAdd, step]
  | succ k ih =>
    have h := ih (handleAddToCart applyCartLinesChange cartLines variantId heading s).1
    rw [repeatAdd]
    simp only [step, List.nil_append] at h ⊢
    exact h

theorem handleAddToCart_guard_witness :
    (handleAddToCart (fun _ => MutationOutcome.resolved ⟨"success", none⟩) [⟨⟨"v1"⟩⟩]
        (JsVal.str "v1") "Widget" mountState).2.calls = [] ∧
    (handleAddToCart (fun _ => MutationOutcome.resolved ⟨"success", none⟩) [⟨⟨"v1"⟩⟩]
        (JsVal.str "v1") "Widget" mountState).1.status
      = some ⟨"info", "Widget" ++ " is already in the cart"⟩ :=
  let h := handleAddToCart_guard (fun _ => MutationOutcome.resolved ⟨"success", none⟩)
    [⟨⟨"v1"⟩⟩] (JsVal.str "v1") "Widget" mountState ⟨⟨⟨"v1"⟩⟩, by simp, rfl⟩
  ⟨h.1, h.2.1⟩

/-- C6 (successful add): for a variant id carried by no cart line, when the mutation
resolves with a result whose type is not "error", exactly one request was issued,
it is the add-line request for that id with quantity 1, and the status is the
success notice for the heading. -/
theorem handleAddToCart_success (cartLines : List CartLine) (variantId : JsVal)
    (heading : String) (s : ExtState) (result : ChangeResult)
    (hout : ∀ line ∈ cartLines, JsVal.str line.merchandise.id ≠ variantId)
    (hok : result.type ≠ "error") :
    (handleAddToCart (fun _ => MutationOutcome.resolved result) cartLines variantId heading
        s).2.calls = [⟨"addCartLine", variantId, 1⟩] ∧
    (handleAddToCart (fun _ => MutationOutcome.resolved result) cartLines variantId heading
        s).1.status = some ⟨"success", heading ++ " added to cart successfully"⟩ := by
  have hc := cartHas_of_no_line cartLines variantId hout
  simp [handleAddToCart, hc, hok]

theorem handleAddToCart_success_witness :
    (handleAddToCart (fun _ => MutationOutcome.resolved ⟨"success", none⟩) [⟨⟨"v2"⟩⟩]
        (JsVal.str "v1") "Widget" mountState).2.calls = [⟨"addCartLine", JsVal.str "v1", 1⟩] ∧
    (handleAddToCart (fun _ => MutationOutcome.resolved ⟨"success", none⟩) [⟨⟨"v2"⟩⟩]
        (JsVal.str "v1") "Widget" mountState).1.status
      = some ⟨"success", "Widget" ++ " added to cart successfully"⟩ :=
  handleAddToCart_success [⟨⟨"v2"⟩⟩] (JsVal.str "v1") "Widget" mountState ⟨"success", none⟩
    (by simp) (by decide)

/-- C7 (structured rejection): for a variant id carried by no cart line, when the
mutation resolves with type "error" and reason `r`, the status is critical with the
message "Failed to add <heading>: <r>", and the only request issued is the single
add-line request. -/
theorem handleAddToCart_rejected (cartLines : List CartLine) (variantId : JsVal)
    (heading r : String) (s : ExtState)
    (hout : ∀ line ∈ cartLines, JsVal.str line.merchandise.id ≠ variantId) :
    (handleAddToCart (fun _ => MutationOutcome.resolved ⟨"error", some r⟩) cartLines variantId
        heading s).1.status = some ⟨"critical", "Failed to add " ++ heading ++ ": " ++ r⟩ ∧
    (handleAddToCart (fun _ => MutationOutcome.resolved ⟨"error", some r⟩) cartLines variantId
        heading s).2.calls = [⟨"addCartLine", variantId, 1⟩] := by
  have hc := cartHas_of_no_line cartLines variantId hout
  simp [handleAddToCart, hc, interp]

theorem handleAddToCart_rejected_witness :
    (handleAddToCart (fun _ => MutationOutcome.resolved ⟨"error", some "Out of stock"⟩) []
        (JsVal.str "v1") "Widget" mountState).1.status
      = some ⟨"critical", "Failed to add Widget: Out of stock"⟩ ∧
    (handleAddToCart (fun _ => MutationOutcome.resolved ⟨"error", some "Out of stock"⟩) []
        (JsVal.str "v1") "Widget" mountState).2.calls = [⟨"addCartLine", JsVal.str "v1", 1⟩] :=
  handleAddToCart_rejected [] (JsVal.str "v1") "Widget" "Out of stock" mountState (by simp)

/-- C8 (transport failure does not leak): for a variant id carried by no cart line,
when the mutation call throws, the status is critical, its message contains the
heading, and any two thrown exceptions leave the same state: the message depends
on the heading alone. -/
theorem handleAddToCart_thrown (cartLines : List CartLine) (variantId : JsVal)
    (heading : String) (s : ExtState)
    (hout : ∀ line ∈ cartLines, JsVal.str line.merchandise.id ≠ variantId) :
    (∀ e : String, ∃ message : String,
      (handleAddToCart (fun _ => MutationOutcome.thrown e) cartLines variantId heading
          s).1.status = some ⟨"critical", message⟩ ∧
      ∃ before after : String, message = before ++ heading ++ after) ∧
    ∀ e1 e2 : String,
      (handleAddToCart (fun _ => MutationOutcome.thrown e1) cartLines variantId heading s).1
        = (handleAddToCart (fun _ => MutationOutcome.thrown e2) cartLines variantId heading s).1
      := by
  have hc := cartHas_of_no_line cartLines variantId hout
  refine ⟨fun e => ⟨"An unexpected error occurred while adding " ++ heading, ?_,
    "An unexpected error occurred while adding ", "", ?_⟩, fun e1 e2 => ?_⟩
  · simp [handleAddToCart, hc]
  · simp
  · simp [handleAddToCart, hc]

theorem handleAddToCart_thrown_witness :
    (handleAddToCart (fun _ => MutationOutcome.thrown "ECONNRESET at 10.0.0.7") []
        (JsVal.str "v1") "Widget" mountState).1
      = (handleAddToCart (fun _ => MutationOutcome.thrown "TypeError: x is undefined") []
        (JsVal.str "v1") "Widget" mountState).1 :=
  (handleAddToCart_thrown [] (JsVal.str "v1") "Widget" mountState (by simp)).2
    "ECONNRESET at 10.0.0.7" "TypeError: x is undefined"

/-! ## Catalog loader: properties -/

/-- C1 (grouping): for a response of nodes that each have a `product` and a
`priceV2`, the grouping reduce returns a result; the number of groups is the number
of distinct values of `node.product.title`; headings are pairwise distinct and are
exactly these titles; the variants of the group with heading `t` correspond one to
one and in response order to the nodes whose `product.title` is `t`, each variant
carrying the id, title, formatted price and image of its node; and groups are
ordered by the response index of the first node with their heading. -/
theorem fetchedProducts_grouping (fmt : String → String → String) (ns : List Node)
    (hwf : ∀ n ∈ ns, n.product.isSome = true ∧ n.priceV2.isSome = true) :
    ∃ groups : List ProductGroup, fetchedProducts fmt (ns.map some) = some groups ∧
      groups.length = (ns.map fun n => n.product.map Product.title).toFinset.card ∧
      (groups.map ProductGroup.heading).Nodup ∧
      (∀ t : String, t ∈ groups.map ProductGroup.heading ↔
        ∃ n ∈ ns, n.product.map Product.title = some t) ∧
      (∀ g ∈ groups, List.Forall₂
        (fun (v : Variant) (n : Node) => v.id = n.id ∧ v.title = n.title ∧
          (∃ p : PriceV2, n.priceV2 = some p ∧ v.price = fmt p.amount p.currencyCode) ∧
          v.image = strOr (n.image.bind fun i => i.url) placeholderImage)
        g.variants
        (ns.filter fun n => decide (n.product.map Product.title = some g.heading))) ∧
      (groups.map ProductGroup.heading).Pairwise (fun a b =>
        ns.findIdx (fun n => decide (n.product.map Product.title = some a))
          < ns.findIdx (fun n => decide (n.product.map Product.title = some b))) := by
  have hE := entriesOf_map_some fmt ns hwf
  have hsome : ∀ node ∈ ns.map some, (nodeEntry fmt node).isSome = true := by
    intro node hmem
    obtain ⟨n, hn, rfl⟩ := List.mem_map.1 hmem
    rw [nodeEntry_entryOf fmt n (hwf n hn)]
    rfl
  have hG := grouped_groupEntries (entriesOf fmt (ns.map some))
  have hfetch := foldlM_groupStep_some fmt (ns.map some) [] hsome
  rw [hE] at hG hfetch
  have htitles : (ns.map fun n => n.product.map Product.title)
      = (((ns.map (entryOf fmt)).map Prod.fst).map some) := by
    rw [List.map_map, List.map_map]
    apply List.map_congr_left
    intro n hn
    exact parentTitle_entryOf fmt n (hwf n hn)
  have hmem : ∀ t : String, t ∈ (groupEntries [] (ns.map (entryOf fmt))).map
      ProductGroup.heading ↔ ∃ n ∈ ns, n.product.map Product.title = some t := by
    intro t
    rw [hG.mem t]
    constructor
    · intro ht
      obtain ⟨e, he, het⟩ := List.mem_map.1 ht
      obtain ⟨n, hn, rfl⟩ := List.mem_map.1 he
      exact ⟨n, hn, by rw [parentTitle_entryOf fmt n (hwf n hn), het]⟩
    · rintro ⟨n, hn, hnt⟩
      rw [parentTitle_entryOf fmt n (hwf n hn)] at hnt
      exact List.mem_map.2 ⟨entryOf fmt n, List.mem_map.2 ⟨n, hn, rfl⟩, Option.some.inj hnt⟩
  refine ⟨groupEntries [] (ns.map (entryOf fmt)), hfetch, ?_, hG.nodup, hmem, ?_, ?_⟩
  · have hset : (ns.map fun n => n.product.map Product.title).toFinset
        = (((groupEntries [] (ns.map (entryOf fmt))).map ProductGroup.heading).map
            some).toFinset := by
      ext x
      simp only [List.mem_toFinset]
      rw [htitles]
      constructor
      · intro hx
        obtain ⟨t, ht, rfl⟩ := List.mem_map.1 hx
        exact List.mem_map.2 ⟨t, (hG.mem t).2 ht, rfl⟩
      · intro hx
        obtain ⟨t, ht, rfl⟩ := List.mem_map.1 hx
        exact List.mem_map.2 ⟨t, (hG.mem t).1 ht, rfl⟩
    rw [hset, List.toFinset_card_of_nodup (hG.nodup.map (Option.some_injective _)),
      List.length_map, List.length_map]
  · intro g hg
    rw [hG.vars g hg, List.filter_map]
    have hfilter : (ns.filter ((fun e : String × Variant => decide (e.1 = g.heading)) ∘
          entryOf fmt))
        = ns.filter fun n => decide (n.product.map Product.title = some g.heading) := by
      apply List.filter_congr
      intro n hn
      rw [parentTitle_entryOf fmt n (hwf n hn)]
      simp
    rw [hfilter, List.forall₂_map_left_iff, List.forall₂_map_left_iff, List.forall₂_same]
    intro n hn
    have hw := hwf n (List.mem_filter.1 hn).1
    obtain ⟨id, title, price, image, product⟩ := n
    cases price with
    | none => simp at hw
    | some p => exact ⟨rfl, rfl, ⟨p, rfl, rfl⟩, rfl⟩
  · simp only [findIdx_parentTitle fmt _ ns hwf]
    exact hG.order

/-- C5 (fetch failure is atomic): when the query rejects, or `data` or `nodes` is
missing, or any node of the list is malformed (whatever precedes it), the load
leaves the product collection and the selection as they were, so empty from the
mount state, clears the loading flag and sets the critical status "Failed to fetch
product details". -/
theorem fetchProductDetails_failure (fmt : String → String → String) (q : QueryOutcome)
    (s : ExtState) (hfail : loadFails q = true) :
    (fetchProductDetails fmt q s).products = s.products ∧
    (fetchProductDetails fmt q s).selectedVariants = s.selectedVariants ∧
    (fetchProductDetails fmt q s).loading = false ∧
    (fetchProductDetails fmt q s).status
      = some ⟨"critical", "Failed to fetch product details"⟩ ∧
    (fetchProductDetails fmt q mountState).products = [] ∧
    (fetchProductDetails fmt q mountState).selectedVariants = [] := by
  have h := loadFails_loadBody fmt q hfail
  simp [fetchProductDetails, h, mountState]

/-- C10, as amended (image fallback): for every node with a price, the variant is
built with the id and title of the node; its image is the placeholder when the node
has no image, when the image has no URL and when the URL is the empty string; and
it is the URL of the node when that URL is a non-empty string. -/
theorem mkVariant_fields (fmt : String → String → String) (node : Node) (p : PriceV2)
    (hp : node.priceV2 = some p) :
    ∃ v : Variant, mkVariant fmt node = some v ∧ v.id = node.id ∧ v.title = node.title ∧
      (node.image = none → v.image = placeholderImage) ∧
      (∀ img : Image, node.image = some img → img.url = none ∨ img.url = some "" →
        v.image = placeholderImage) ∧
      (∀ (img : Image) (u : String), node.image = some img → img.url = some u → u ≠ "" →
        v.image = u) := by
  refine ⟨⟨node.id, node.title, fmt p.amount p.currencyCode,
    strOr (node.image.bind fun i => i.url) placeholderImage⟩, ?_, rfl, rfl, ?_, ?_, ?_⟩
  · simp [mkVariant, hp]
  · intro h; simp [h, strOr]
  · intro img h hu
    rcases hu with hu | hu <;> simp [h, hu, strOr]
  · intro img u h hu hne
    simp [h, hu, strOr, hne]

theorem scenarioA_groups :
    fetchedProducts sampleFormat (scenarioA.map some) = some scenarioAGroups := by
  decide

theorem fetchedProducts_grouping_witness :
    (∀ n ∈ scenarioA, n.product.isSome = true ∧ n.priceV2.isSome = true) ∧
    ∃ groups : List ProductGroup,
      fetchedProducts sampleFormat (scenarioA.map some) = some groups ∧
      groups.length = (scenarioA.map fun n => n.product.map Product.title).toFinset.card ∧
      (groups.map ProductGroup.heading).Nodup :=
  ⟨by decide,
    let ⟨g, h1, h2, h3, _⟩ := fetchedProducts_grouping sampleFormat scenarioA (by decide)
    ⟨g, h1, h2, h3⟩⟩

/-- C2, evaluation at the failing input: for a response with one variant of a
product titled "__proto__" the load succeeds with one group, but the initial
selection is empty: the group heading has no entry, where the claim requires the
entry "__proto__" with the identifier "p1". -/
theorem initialSelectedVariants_proto_heading :
    fetchedProducts sampleFormat protoResponse = some protoGroups ∧
    initialSelectedVariants protoGroups = some [] ∧
    (fetchProductDetails sampleFormat (QueryOutcome.resolved ⟨some ⟨some protoResponse⟩⟩)
        mountState).products = protoGroups ∧
    (fetchProductDetails sampleFormat (QueryOutcome.resolved ⟨some ⟨some protoResponse⟩⟩)
        mountState).selectedVariants = [] ∧
    getKey (fetchProductDetails sampleFormat
        (QueryOutcome.resolved ⟨some ⟨some protoResponse⟩⟩) mountState).selectedVariants
      "__proto__" = none := by
  refine ⟨by decide, by decide, by decide, by decide, by decide⟩

theorem fetchProductDetails_failure_witness :
    loadFails brokenResponse = true ∧
    (fetchProductDetails sampleFormat brokenResponse mountState).products = [] ∧
    (fetchProductDetails sampleFormat brokenResponse mountState).status
      = some ⟨"critical", "Failed to fetch product details"⟩ :=
  let h := fetchProductDetails_failure sampleFormat brokenResponse mountState (by decide)
  ⟨by decide, h.1, h.2.2.2.1⟩

/-- C10, counterexample: a node whose image URL is the empty string is given the
placeholder, not its own URL. -/
theorem mkVariant_empty_url :
    ∃ v : Variant, mkVariant sampleFormat emptyUrlNode = some v ∧
      (emptyUrlNode.image.bind fun i => i.url) = some "" ∧
      v.image = placeholderImage ∧ v.image ≠ "" :=
  ⟨⟨"v1", "Small", "USD 10.0", placeholderImage⟩, by decide, by decide, rfl, by decide⟩

theorem mkVariant_fields_witness :
    pictureNode.priceV2 = some ⟨"5.0", "USD"⟩ ∧
    ∃ v : Variant, mkVariant sampleFormat pictureNode = some v ∧ v.id = pictureNode.id ∧
      v.title = pictureNode.title :=
  ⟨rfl,
    let ⟨v, h1, h2, h3, _⟩ := mkVariant_fields sampleFormat pictureNode ⟨"5.0", "USD"⟩ rfl
    ⟨v, h1, h2, h3⟩⟩

/-! ## Render -/

/-- C9, evaluation at the failing input: with the selection entry "v9" that is no
variant of the group, the resolved variant is the first one, "v1", and the card
shows it; but the in-cart flag is computed from "v9" (false although "v1" is in the
cart), and pressing the button passes "v9" to `handleAddToCart`, which issues an
add-line request for "v9". -/
theorem renderCard_stray_selection :
    (selectedVariant strayState.selectedVariants widgetGroup).map Variant.id = some "v1" ∧
    cartHas (cartVariantIds widgetCart) (JsVal.str "v1") = true ∧
    ∃ card : Card, renderCard widgetCart strayState.selectedVariants widgetGroup = some card ∧
      card.imageSource = "https://cdn.example/v1.png" ∧
      card.price = "USD 10.0" ∧
      card.pressVariantId = JsVal.str "v9" ∧
      card.disabled = false ∧
      card.buttonLabel = "Add to Cart" ∧
      (pressAdd (fun _ => MutationOutcome.resolved ⟨"success", none⟩) widgetCart card
          strayState).2.calls = [⟨"addCartLine", JsVal.str "v9", 1⟩] := by
  refine ⟨by decide, by decide, ?_⟩
  refine ⟨⟨"https://cdn.example/v1.png", "Widget image", "Widget", "USD 10.0",
    some ⟨"Select Variant", JsVal.str "v9",
      [("v1", "Small - USD 10.0"), ("v2", "Large - USD 12.0")]⟩,
    none, JsVal.str "v9", "Widget", false, "Add to Cart"⟩, by decide, rfl, rfl, rfl, rfl, rfl,
    by decide⟩

end Checkout
